import Mathlib

/-!
Verification of the selenide-lang front end and execution core against its
specification.  The definitions below are a shallow embedding of the Rust
sources:

* `crates/se-opcodes/src/errors.rs`   — `OpcodeError`, `RegistryError`
* `crates/se-opcodes/src/codes.rs`    — `Opcode`, `Opcode.from_hex`, `Opcode.to_hex`
* `crates/se-opcodes/src/registry.rs` — `StateValue`, `Value`, `ExecutionContext`
* `crates/se-compiler/src/lexer.rs`   — `Token`, `Lexer`, `Lexer.next_token`
* `crates/se-compiler/src/parser.rs`  — `VariableType`, `ASTNode`, `Parser.parse`

Machine integers (`u8`, `usize`, `u128`, `i32`) are modelled as `Nat`/`Int`
with explicit bounds checks where the Rust code can overflow or panic.
Rust panics are modelled as error values (`Except.error` / `PResult.fatal`);
Rust loops whose termination is in question are modelled with an explicit
fuel parameter and a distinguished `outOfFuel` outcome.
-/

/-! ## Opcode codec (`se-opcodes/src/errors.rs`, `se-opcodes/src/codes.rs`) -/

/-- `OpcodeError` from `errors.rs`.  Payloads: the offending opcode byte, the
offending operand byte, and (expected, actual) operand counts.  The Rust
spelling `OperandLenghtMismatch` (sic) is kept. -/
inductive OpcodeError where
  | InvalidOpcode : Nat → OpcodeError
  | InvalidOperand : Nat → OpcodeError
  | OperandLenghtMismatch : Nat → Nat → OpcodeError
deriving DecidableEq, Repr

/-- `RegistryError` from `errors.rs`. -/
inductive RegistryError where
  | InvalidStateRegister : String → RegistryError
  | InvalidLocalRegister : String → RegistryError
  | TypeMismatch : String → String → String → RegistryError
  | OutOfBounds : Nat → Nat → RegistryError
deriving DecidableEq, Repr

/-- The 15-member instruction set from `codes.rs`; operand bytes are carried
as `Nat` (they are opaque `u8` indices, never used arithmetically). -/
inductive Opcode where
  | ADD : Nat → Nat → Opcode
  | SUB : Nat → Nat → Opcode
  | MUL : Nat → Nat → Opcode
  | DIV : Nat → Nat → Opcode
  | MOD : Nat → Nat → Opcode
  | SQRT : Nat → Opcode
  | EXP : Nat → Nat → Opcode
  | LOAD : Nat → Nat → Opcode
  | STORE : Nat → Nat → Opcode
  | SGET : Nat → Nat → Opcode
  | SSET : Nat → Nat → Opcode
  | SMGET : Nat → Nat → Nat → Opcode
  | SMSET : Nat → Nat → Nat → Opcode
  | CALL : Nat → Opcode
  | RET : Opcode
deriving DecidableEq, Repr

/-- `Opcode::from_hex` from `codes.rs`.  The Rust `match` on the `u8` opcode
byte is rendered as the equivalent chain of equality tests; `operands[i]`
after the length guard is rendered as `List.getD`.  Note that the `0x0F`
(RET) arm performs no length check, exactly as in the source. -/
def Opcode.from_hex (hex : Nat) (operands : List Nat) : Except OpcodeError Opcode :=
  if hex = 0x01 then
    if operands.length ≠ 2 then .error (.OperandLenghtMismatch 2 operands.length)
    else .ok (.ADD (operands.getD 0 0) (operands.getD 1 0))
  else if hex = 0x02 then
    if operands.length ≠ 2 then .error (.OperandLenghtMismatch 2 operands.length)
    else .ok (.SUB (operands.getD 0 0) (operands.getD 1 0))
  else if hex = 0x03 then
    if operands.length ≠ 2 then .error (.OperandLenghtMismatch 2 operands.length)
    else .ok (.MUL (operands.getD 0 0) (operands.getD 1 0))
  else if hex = 0x04 then
    if operands.length ≠ 2 then .error (.OperandLenghtMismatch 2 operands.length)
    else .ok (.DIV (operands.getD 0 0) (operands.getD 1 0))
  else if hex = 0x05 then
    if operands.length ≠ 2 then .error (.OperandLenghtMismatch 2 operands.length)
    else .ok (.MOD (operands.getD 0 0) (operands.getD 1 0))
  else if hex = 0x06 then
    if operands.length ≠ 1 then .error (.OperandLenghtMismatch 1 operands.length)
    else .ok (.SQRT (operands.getD 0 0))
  else if hex = 0x07 then
    if operands.length ≠ 2 then .error (.OperandLenghtMismatch 2 operands.length)
    else .ok (.EXP (operands.getD 0 0) (operands.getD 1 0))
  else if hex = 0x08 then
    if operands.length ≠ 2 then .error (.OperandLenghtMismatch 2 operands.length)
    else .ok (.LOAD (operands.getD 0 0) (operands.getD 1 0))
  else if hex = 0x09 then
    if operands.length ≠ 2 then .error (.OperandLenghtMismatch 2 operands.length)
    else .ok (.STORE (operands.getD 0 0) (operands.getD 1 0))
  else if hex = 0x0A then
    if operands.length ≠ 2 then .error (.OperandLenghtMismatch 2 operands.length)
    else .ok (.SGET (operands.getD 0 0) (operands.getD 1 0))
  else if hex = 0x0B then
    if operands.length ≠ 2 then .error (.OperandLenghtMismatch 2 operands.length)
    else .ok (.SSET (operands.getD 0 0) (operands.getD 1 0))
  else if hex = 0x0C then
    if operands.length ≠ 3 then .error (.OperandLenghtMismatch 3 operands.length)
    else .ok (.SMGET (operands.getD 0 0) (operands.getD 1 0) (operands.getD 2 0))
  else if hex = 0x0D then
    if operands.length ≠ 3 then .error (.OperandLenghtMismatch 3 operands.length)
    else .ok (.SMSET (operands.getD 0 0) (operands.getD 1 0) (operands.getD 2 0))
  else if hex = 0x0E then
    if operands.length ≠ 1 then .error (.OperandLenghtMismatch 1 operands.length)
    else .ok (.CALL (operands.getD 0 0))
  else if hex = 0x0F then .ok .RET
  else .error (.InvalidOpcode hex)

/-- `Opcode::to_hex` from `codes.rs`. -/
def Opcode.to_hex : Opcode → Nat
  | .ADD _ _ => 0x01
  | .SUB _ _ => 0x02
  | .MUL _ _ => 0x03
  | .DIV _ _ => 0x04
  | .MOD _ _ => 0x05
  | .SQRT _ => 0x06
  | .EXP _ _ => 0x07
  | .LOAD _ _ => 0x08
  | .STORE _ _ => 0x09
  | .SGET _ _ => 0x0A
  | .SSET _ _ => 0x0B
  | .SMGET _ _ _ => 0x0C
  | .SMSET _ _ _ => 0x0D
  | .CALL _ => 0x0E
  | .RET => 0x0F

/-- The fixed operand arity of each assigned opcode byte, as read off the
decoder's length guards in `codes.rs` (spec section 4.3): 1 for SQRT/CALL,
2 for ADD/SUB/MUL/DIV/MOD/EXP/LOAD/STORE/SGET/SSET, 3 for SMGET/SMSET,
0 for RET. -/
def operandArity (hex : Nat) : Nat :=
  if hex = 0x06 ∨ hex = 0x0E then 1
  else if hex = 0x0C ∨ hex = 0x0D then 3
  else if hex = 0x0F then 0
  else 2

/-! ## Execution context (`se-opcodes/src/registry.rs`) -/

/-- `StateValue` from `registry.rs` (the `&str` payload becomes `String`,
`Vec<u8>` becomes `List Nat`). -/
inductive StateValue where
  | Uint8 : Nat → StateValue
  | Uint128 : Nat → StateValue
  | String : String → StateValue
  | Bool : Bool → StateValue
  | ByteArray : List Nat → StateValue
deriving DecidableEq, Repr

/-- `Value` from `registry.rs` (register values). -/
inductive Value where
  | Uint8 : Nat → Value
  | Uint128 : Nat → Value
  | String : String → Value
  | Bool : Bool → Value
  | ByteArray : List Nat → Value
deriving DecidableEq, Repr

/-- `ExecutionContext` from `registry.rs`.  The `HashMap<Rc<str>, StateValue>`
is modelled as an association list with first-match lookup and in-place
update (one entry per key along every reachable execution, as in a hash
map); the `Vec<Value>` register file is a `List Value`. -/
structure ExecutionContext where
  state : List (String × StateValue)
  memory : List Value
deriving DecidableEq, Repr

/-- First-match lookup, modelling `HashMap::get`. -/
def lookupState : List (String × StateValue) → String → Option StateValue
  | [], _ => none
  | (k, v) :: rest, key => if k = key then some v else lookupState rest key

/-- In-place overwrite of the first entry with the given key, modelling the
write through `HashMap::get_mut`. -/
def updateState : List (String × StateValue) → String → StateValue → List (String × StateValue)
  | [], _, _ => []
  | (k, v) :: rest, key, value =>
    if k = key then (k, value) :: rest else (k, v) :: updateState rest key value

/-- `ExecutionContext::new_empty`. -/
def ExecutionContext.new_empty : ExecutionContext where
  state := []
  memory := []

/-- `ExecutionContext::get_state`. -/
def ExecutionContext.get_state (ctx : ExecutionContext) (key : String) :
    Except RegistryError StateValue :=
  match lookupState ctx.state key with
  | some value => .ok value
  | none => .error (.InvalidStateRegister key)

/-- `ExecutionContext::set_state`.  The Rust method returns
`Result<(), RegistryError>` but is `Ok(())` on both branches, so the model
returns the updated context directly. -/
def ExecutionContext.set_state (ctx : ExecutionContext) (key : String) (value : StateValue) :
    ExecutionContext :=
  match lookupState ctx.state key with
  | some _ => { ctx with state := updateState ctx.state key value }
  | none => { ctx with state := (key, value) :: ctx.state }

/-- `ExecutionContext::malloc`: push onto the register file and return the
new index (`memory.len() - 1` after the push). -/
def ExecutionContext.malloc (ctx : ExecutionContext) (value : Value) :
    ExecutionContext × Nat :=
  let memory := ctx.memory ++ [value]
  ({ ctx with memory := memory }, memory.length - 1)

/-- `ExecutionContext::delloc`: `Vec::remove` at `index` (shifting every
later register down by one) when in bounds, else `OutOfBounds(index, len)`. -/
def ExecutionContext.delloc (ctx : ExecutionContext) (index : Nat) :
    Except RegistryError ExecutionContext :=
  if index < ctx.memory.length then
    .ok { ctx with memory := ctx.memory.eraseIdx index }
  else
    .error (.OutOfBounds index ctx.memory.length)

/-- `ExecutionContext::clear_memory`. -/
def ExecutionContext.clear_memory (ctx : ExecutionContext) : ExecutionContext :=
  { ctx with memory := [] }

/-! ## Lexer (`se-compiler/src/lexer.rs`)

The source buffer plus scan cursor (`input`, `pos`) is modelled as the
remaining character list `rest`; a token's borrowed slice becomes a copied
`String`.  `std::fs::read_to_string` is modelled by a caller-supplied
association list `fs` from path to file contents (a missing entry models
the read failure, whose `expect` panic becomes `Except.error`).  ASCII
classification (`Char.isAlpha`, `Char.isDigit`, `Char.isWhitespace`,
`Char.isAlphanum`) stands in for Rust's Unicode classes. -/

/-- `Token` from `lexer.rs`. -/
inductive Token where
  | Define | Version | Schemes | State | Consts
  | Include : String → Token
  | Procedures | Address | U128 | U8 | Bool | Table
  | PubFModifier | MutFModifier | Return
  | Number : String → Token
  | Identifier : String → Token
  | Operator : String → Token
  | Comment : String → Token
  | String : String → Token
  | Whitespace
  | LeftBrace | RightBrace | LeftBracket | RightBracket
  | LeftParen | RightParen | Comma | SemiColon | Period
  | Eof
deriving DecidableEq, Repr

/-- The static keyword map built by `Lexer::build_keyword_map` (the
process-wide `HashMap<&str, Token>`), as an association list. -/
def build_keyword_map : List (String × Token) :=
  [("$define", .Define), ("version", .Version), ("schemes", .Schemes),
   ("$state", .State), ("$consts", .Consts), ("$procedures", .Procedures),
   ("address", .Address), ("table", .Table), ("u128", .U128), ("u8", .U8),
   ("bool", .Bool), ("pub", .PubFModifier), ("mut", .MutFModifier),
   ("return", .Return)]

/-- `self.keywords.get(identifier)`. -/
def keywordToken (s : String) : Option Token :=
  (build_keyword_map.find? (fun kv => kv.1 = s)).map (fun kv => kv.2)

/-- The character class of the identifier-continuation loop in
`Lexer::next_token` (`is_alphanumeric() || c == '_' || c == '$'`). -/
def isIdentChar (c : Char) : Bool :=
  c.isAlphanum || c = '_' || c = '$'

/-- The character class consumed by `Lexer::tokenize_number`. -/
def isNumChar (c : Char) : Bool :=
  c.isDigit || c = '.' || c = 'e' || c = 'E'

/-- `Lexer::skip_whitespace`. -/
def skip_whitespace : List Char → List Char
  | [] => []
  | c :: cs => if c.isWhitespace then skip_whitespace cs else c :: cs

/-- `str::parse::<i32>`: optional sign, at least one digit, value within the
`i32` range. -/
def parseI32 (s : String) : Option Int :=
  let withSign : Int × List Char :=
    match s.toList with
    | '+' :: t => (1, t)
    | '-' :: t => (-1, t)
    | t => (1, t)
  if withSign.2 = [] ∨ ¬ withSign.2.all Char.isDigit then none
  else
    let v : Int := withSign.1 * (withSign.2.foldl (fun a c => a * 10 + (c.toNat - 48)) 0 : Nat)
    if -2147483648 ≤ v ∧ v ≤ 2147483647 then some v else none

/-- `Lexer::parse_exponent`: split at the first `e`/`E` and parse the suffix
as an `i32`. -/
def parse_exponent (number : String) : Option Int :=
  match number.toList.findIdx? (fun c => c = 'e' || c = 'E') with
  | none => none
  | some index => parseI32 (String.mk (number.toList.drop (index + 1)))

/-- `Lexer::expand_scientific_notation`: append `exponent` many zeros
(`for _ in 0..exponent` runs zero times for a non-positive exponent). -/
def expand_scientific_notation (base : String) (exponent : Int) : String :=
  base ++ String.mk (List.replicate exponent.toNat '0')

/-- `Lexer::tokenize_number`: greedily consume digits / `.` / `e` / `E`,
then expand an integral exponent, reinterpret a lone `.` as `Period`, and
otherwise return the raw literal.  Returns the token and the remaining
characters. -/
def tokenize_number (rest : List Char) : Token × List Char :=
  let numChars := rest.takeWhile isNumChar
  let rest' := rest.dropWhile isNumChar
  let number := String.mk numChars
  let has_exponent := numChars.any (fun c => c = 'e' || c = 'E')
  match if has_exponent then parse_exponent number else none with
  | some exponent =>
    match numChars.findIdx? (fun c => c = 'e' || c = 'E') with
    | some base_end =>
      (.Number ( expand_scientific_notation (String.mk (numChars.take base_end)) exponent), rest')
    | none => if number = "." then (.Period, rest') else (.Number number, rest')
  | none => if number = "." then (.Period, rest') else (.Number number, rest')

/-- `Path::new(working_dir).join(filename)`, for the simple relative paths
the lexer uses (no normalization, matching the spec section 6). -/
def pathJoin (workingDir filename : String) : String :=
  if workingDir = "" then filename else workingDir ++ "/" ++ filename

/-- Lookup in the modelled file system (`std::fs::read_to_string`). -/
def lookupFs : List (String × String) → String → Option String
  | [], _ => none
  | (p, c) :: rest, path => if p = path then some c else lookupFs rest path

/-- `Lexer` from `lexer.rs`: the remaining input, the working directory, and
the optional actively-included nested lexer (`inner_lexer`).  The
`included_files` vector only manages buffer ownership in Rust and has no
observable effect, so it is omitted. -/
inductive Lexer where
  | mk : List Char → String → Option Lexer → Lexer

/-- The remaining input of a lexer. -/
def Lexer.rest : Lexer → List Char
  | .mk r _ _ => r

/-- The working directory of a lexer. -/
def Lexer.workingDir : Lexer → String
  | .mk _ wd _ => wd

/-- The `inner_lexer` field. -/
def Lexer.inner_lexer : Lexer → Option Lexer
  | .mk _ _ inner => inner

/-- `Lexer::tokenize_include` followed by `Lexer::load_header`: skip
whitespace, consume an optional opening quote, scan the filename up to the
next quote, read the resolved file (a missing file is the fatal
`expect("Failed to read included file")`), and install the nested lexer. -/
def tokenize_include (fs : List (String × String)) (wd : String) (rest : List Char) :
    Except String (Token × Lexer) :=
  let rest1 := skip_whitespace rest
  let rest2 := if rest1.head? = some '"' then rest1.drop 1 else rest1
  let nameChars := rest2.takeWhile (fun c => ¬ (c = '"'))
  let rest3 := (rest2.dropWhile (fun c => ¬ (c = '"'))).drop 1
  let includeName := String.mk nameChars
  match lookupFs fs (pathJoin wd includeName) with
  | none => .error "Failed to read included file"
  | some content =>
    .ok (.Include includeName, .mk rest3 wd (some (.mk content.toList wd none)))

/-- The identifier arm of `Lexer::next_token`: consume the identifier run,
intercept `$include` before the keyword lookup, then classify against the
keyword map, falling back to `Identifier`. -/
def identToken (fs : List (String × String)) (wd : String) (rest : List Char) :
    Except String (Token × Lexer) :=
  let identifier := String.mk (rest.takeWhile (fun ch => isIdentChar ch))
  let restId := rest.dropWhile (fun ch => isIdentChar ch)
  if identifier = "$include" then tokenize_include fs wd restId
  else
    match keywordToken identifier with
    | some t => .ok (t, .mk restId wd none)
    | none => .ok (.Identifier identifier, .mk restId wd none)

/-- The final single-character arm of `Lexer::next_token`: fixed punctuation
tokens, any other byte becoming a one-character `Operator`. -/
def punctToken (c : Char) : Token :=
  if c = '{' then .LeftBrace
  else if c = '}' then .RightBrace
  else if c = '[' then .LeftBracket
  else if c = ']' then .RightBracket
  else if c = '(' then .LeftParen
  else if c = ')' then .RightParen
  else if c = ',' then .Comma
  else if c = ';' then .SemiColon
  else if c = '.' then .Period
  else .Operator (String.mk [c])

/-- The body of `Lexer::next_token` once `inner_lexer` is `None`: skip
whitespace, then scan one token following the source's priority order
(end of input, comment, identifier/keyword/include, string, number,
punctuation, one-character operator). -/
def baseNext (fs : List (String × String)) (wd : String) (rest0 : List Char) :
    Except String (Token × Lexer) :=
  match skip_whitespace rest0 with
  | [] => .ok (.Eof, .mk [] wd none)
  | c :: cs =>
    if c = '/' ∧ cs.head? = some '/' then
      .ok (.Comment (String.mk ((c :: cs).takeWhile (fun ch => ¬ (ch = '\n')))),
           .mk ((c :: cs).dropWhile (fun ch => ¬ (ch = '\n'))) wd none)
    else if c = '$' ∨ c.isAlpha then identToken fs wd (c :: cs)
    else if c = '"' then
      .ok (.String (String.mk (cs.takeWhile (fun ch => ¬ (ch = '"')))),
           .mk ((cs.dropWhile (fun ch => ¬ (ch = '"'))).drop 1) wd none)
    else if c.isDigit ∨ c = '.' then
      .ok ((tokenize_number (c :: cs)).1, .mk (tokenize_number (c :: cs)).2 wd none)
    else .ok (punctToken c, .mk cs wd none)

/-- `Lexer::next_token`: delegate to the nested lexer while one is active;
when it yields the synthetic `Eof`, pop it and resume scanning in the
parent.  (In Rust the resume re-enters `next_token` with `inner_lexer`
already set to `None`, which is exactly the `baseNext` call here.) -/
def nextToken (fs : List (String × String)) : Lexer → Except String (Token × Lexer)
  | .mk rest wd none => baseNext fs wd rest
  | .mk rest wd (some inner) =>
    match nextToken fs inner with
    | .error e => .error e
    | .ok (t, inner') =>
      if t = .Eof then baseNext fs wd rest
      else .ok (t, .mk rest wd (some inner'))

/-- Driving loop used by the parser and the tests: collect tokens until the
outermost `Eof` (exclusive), with fuel. -/
def tokenize (fs : List (String × String)) : Nat → Lexer → Except String (List Token)
  | 0, _ => .error "out of fuel"
  | fuel + 1, l =>
    match nextToken fs l with
    | .error e => .error e
    | .ok (t, l') =>
      if t = .Eof then .ok []
      else
        match tokenize fs fuel l' with
        | .error e => .error e
        | .ok ts => .ok (t :: ts)

example : tokenize [] 50 (.mk "10e12 * 5".toList "" none) =
    .ok [.Number "10000000000000", .Operator "*", .Number "5"] := by rfl

example : tokenize [] 50 (.mk "2.5 + 1".toList "" none) =
    .ok [.Number "2.5", .Operator "+", .Number "1"] := by rfl

/-! ## Parser (`se-compiler/src/parser.rs`)

The parser's mutable state (`current_token` plus the lexer position) is
modelled as the list of remaining tokens: the current token is the head of
the list (`Token.Eof` once the list is empty, matching the lexer's
behaviour of returning `Eof` forever at end of input), and `next_token`
drops the head.  Every Rust `panic!` becomes `PResult.fatal` with the
panic message; the `while` loops are given explicit fuel, with
`PResult.outOfFuel` recording that the loop was still running when the
fuel ran out (i.e. nontermination in the limit).  The constant folding in
`expect_value` uses `u128` arithmetic whose overflow, underflow and
division by zero panic (spec sections 4.2 and 7), modelled by explicit
bounds checks against `U128_MAX`. -/

/-- `VariableType` from `parser.rs`. -/
inductive VariableType where
  | U128 | U8 | Address | String | Bool
  | Array : VariableType → VariableType
deriving DecidableEq, Repr

/-- `ASTNode` from `parser.rs` (the statement/expression variants reserved
for procedure bodies are kept even though no parsing rule produces them). -/
inductive ASTNode where
  | Number : String → ASTNode
  | StringLiteral : String → ASTNode
  | Comment : String → ASTNode
  | Array : List ASTNode → ASTNode
  | Address : String → ASTNode
  | Root : List ASTNode → ASTNode
  | Define : Option String → List ASTNode → ASTNode
  | Schemes : List ASTNode → ASTNode
  | Scheme : String → List (String × ASTNode) → ASTNode
  | State : List ASTNode → ASTNode
  | StateVariableDeclaration : String → VariableType → ASTNode
  | Consts : List ASTNode → ASTNode
  | ConstDeclaration : String → VariableType → ASTNode → ASTNode
  | Procedures : List ASTNode → ASTNode
  | Function : String → Bool → Bool → List (String × VariableType) → List ASTNode → ASTNode
  | LocalVariableDeclaration : String → VariableType → ASTNode → ASTNode
  | LocalVariableAssignment : String → ASTNode → ASTNode
  | Return : ASTNode → ASTNode
  | If : ASTNode → List ASTNode → List ASTNode → ASTNode
  | While : ASTNode → List ASTNode → ASTNode
  | Call : String → List ASTNode → ASTNode

/-- Outcome of a parsing function: success with the remaining tokens, a
fatal panic, or fuel exhaustion (the corresponding Rust loop was still
running). -/
inductive PResult (α : Type) where
  | ok : α → List Token → PResult α
  | fatal : String → PResult α
  | outOfFuel : PResult α

/-- Sequencing of parsing steps (panics and fuel exhaustion propagate). -/
def PResult.andThen : PResult α → (α → List Token → PResult β) → PResult β
  | .ok a ts, k => k a ts
  | .fatal m, _ => .fatal m
  | .outOfFuel, _ => .outOfFuel

/-- The parser's `current_token`: the head of the remaining tokens, `Eof`
when exhausted. -/
def cur : List Token → Token
  | [] => .Eof
  | t :: _ => t

/-- `Parser::next_token`: advance by one token (at end of input the lexer
keeps returning `Eof`, so the empty list stays empty). -/
def adv : List Token → List Token
  | [] => []
  | _ :: ts => ts

/-- `Parser::expect_token`. -/
def expect_token (expected : Token) (message : String) (ts : List Token) : PResult Unit :=
  if cur ts ≠ expected then .fatal message else .ok () (adv ts)

/-- `Parser::expect_operator` (the panic message interpolates the expected
operator). -/
def expect_operator (expected_op : String) (ts : List Token) : PResult Unit :=
  match cur ts with
  | .Operator op =>
    if op = expected_op then .ok () (adv ts)
    else .fatal ("Expected \x27" ++ expected_op ++ "\x27 operator")
  | _ => .fatal ("Expected \x27" ++ expected_op ++ "\x27 operator")

/-- `Parser::expect_string`. -/
def expect_string (message : String) (ts : List Token) : PResult String :=
  match cur ts with
  | .String value => .ok value (adv ts)
  | _ => .fatal message

/-- `Parser::expect_identifier` (the Rust panic message also interpolates
the found token's debug form, elided here). -/
def expect_identifier (ts : List Token) : PResult String :=
  match cur ts with
  | .Identifier id => .ok id (adv ts)
  | _ => .fatal "Expected an identifier"

/-- `Parser::expect_variable_type`. -/
def expect_variable_type (ts : List Token) : PResult VariableType :=
  match cur ts with
  | .Address => .ok .Address (adv ts)
  | .U128 => .ok .U128 (adv ts)
  | .U8 => .ok .U8 (adv ts)
  | .Bool => .ok .Bool (adv ts)
  | _ => .fatal "Expected a type identifier"

/-- `u128::MAX`. -/
def U128_MAX : Nat := 2 ^ 128 - 1

/-- `str::parse::<u128>`: optional `+` sign, at least one digit, value at
most `u128::MAX`. -/
def parseU128 (s : String) : Option Nat :=
  let digits : List Char :=
    match s.toList with
    | '+' :: t => t
    | t => t
  if digits = [] ∨ ¬ digits.all Char.isDigit then none
  else
    let v := digits.foldl (fun a c => a * 10 + (c.toNat - 48)) 0
    if v ≤ U128_MAX then some v else none

/-- One folded arithmetic step of `Parser::expect_value`: unchecked (debug)
`u128` arithmetic, so overflow, underflow and division by zero panic; the
`^` arm truncates the exponent with `as u32` and then `u128::pow` panics on
overflow.  The catch-all arm is the `panic!("Unknown operator")`. -/
def applyOp (op : String) (original next : Nat) : Except String Nat :=
  if op = "+" then
    if original + next ≤ U128_MAX then .ok (original + next)
    else .error "attempt to add with overflow"
  else if op = "-" then
    if next ≤ original then .ok (original - next)
    else .error "attempt to subtract with overflow"
  else if op = "*" then
    if original * next ≤ U128_MAX then .ok (original * next)
    else .error "attempt to multiply with overflow"
  else if op = "/" then
    if next = 0 then .error "attempt to divide by zero" else .ok (original / next)
  else if op = "%" then
    if next = 0 then .error "attempt to calculate the remainder with a divisor of zero"
    else .ok (original % next)
  else if op = "^" then
    let e := next % 4294967296
    if original ^ e ≤ U128_MAX then .ok (original ^ e)
    else .error "attempt to multiply with overflow"
  else .error "Unknown operator"

/-- The array-literal loop of `Parser::expect_value`: between `[` and `]`,
collect every `String` token and silently skip everything else.  The Rust
loop does not test for `Eof`, so an unterminated array spins forever
(fuel). -/
def array_loop : Nat → List Token → List ASTNode → PResult (List ASTNode)
  | 0, _, _ => .outOfFuel
  | fuel + 1, ts, arr =>
    if cur ts = .RightBracket then .ok arr ts
    else
      match cur ts with
      | .String value => array_loop fuel (adv ts) (arr ++ [ASTNode.StringLiteral value])
      | _ => array_loop fuel (adv ts) arr

/-- The constant-folding loop of `Parser::expect_value`: while the current
token is an operator, demand a number, parse both sides with
`parse::<u128>().unwrap()` (a parse failure panics), apply the operator,
and continue with the decimal rendering of the result. -/
def fold_loop : Nat → List Token → String → PResult String
  | 0, _, _ => .outOfFuel
  | fuel + 1, ts, value =>
    match cur ts with
    | .Operator op =>
      let ts1 := adv ts
      match cur ts1 with
      | .Number next_value =>
        match parseU128 value, parseU128 next_value with
        | some original, some next =>
          match applyOp op original next with
          | .ok v => fold_loop fuel (adv ts1) (toString v)
          | .error m => .fatal m
        | _, _ => .fatal "called Result::unwrap on an Err value"
      | _ => .fatal "Expected number after operator"
    | _ => .ok value ts

/-- `Parser::expect_value`: an array literal, a number followed by folded
`<operator><number>` pairs, or a bare string literal (which, as in the
source, is returned without consuming the token). -/
def expect_value (fuel : Nat) (ts : List Token) : PResult ASTNode :=
  if cur ts = .LeftBracket then
    match array_loop fuel (adv ts) [] with
    | .ok arr ts' => .ok (ASTNode.Array arr) (adv ts')
    | .fatal m => .fatal m
    | .outOfFuel => .outOfFuel
  else
    match cur ts with
    | .Number value =>
      match fold_loop fuel (adv ts) value with
      | .ok v ts' => .ok (ASTNode.Number v) ts'
      | .fatal m => .fatal m
      | .outOfFuel => .outOfFuel
    | .String value => .ok (ASTNode.StringLiteral value) ts
    | _ => .fatal "Unexpected token in params"

/-- `Parser::parse_version`. -/
def parse_version (ts : List Token) : PResult (String × String) :=
  (expect_operator "=" (adv ts)).andThen fun _ ts =>
  (expect_string "Expected string value for version" ts).andThen fun value ts =>
  .ok ("version", value) ts

/-- `Parser::parse_preset`. -/
def parse_preset (ts : List Token) : PResult String :=
  (expect_token (.Identifier "preset") "Expected \x27preset\x27 to start scheme" ts).andThen
    fun _ ts =>
  (expect_operator "=" ts).andThen fun _ ts =>
  expect_string "Expected string value for preset" ts

/-- The `identifier = value` loop of `Parser::parse_params` (runs until `}`
or `Eof`; the closing `}` is left unconsumed, as in the source). -/
def params_loop : Nat → List Token → List (String × ASTNode) →
    PResult (List (String × ASTNode))
  | 0, _, _ => .outOfFuel
  | fuel + 1, ts, params =>
    if cur ts ≠ .RightBrace ∧ cur ts ≠ .Eof then
      (expect_identifier ts).andThen fun id ts =>
      (expect_operator "=" ts).andThen fun _ ts =>
      (expect_value fuel ts).andThen fun value ts =>
      params_loop fuel ts (params ++ [(id, value)])
    else .ok params ts

/-- `Parser::parse_params`. -/
def parse_params (fuel : Nat) (ts : List Token) : PResult (List (String × ASTNode)) :=
  (expect_token (.Identifier "params") "Expected \x27params\x27 to start scheme" ts).andThen
    fun _ ts =>
  (expect_operator "=" ts).andThen fun _ ts =>
  (expect_token .LeftBrace "Expected \x27\x7b\x27 to start params" ts).andThen fun _ ts =>
  params_loop fuel ts []

/-- `Parser::parse_scheme` (which wraps the single scheme in a `Schemes`
node, as the source does). -/
def parse_scheme (fuel : Nat) (ts : List Token) : PResult ASTNode :=
  (parse_preset ts).andThen fun preset ts =>
  (parse_params fuel ts).andThen fun params ts =>
  .ok (ASTNode.Schemes [ASTNode.Scheme preset params]) ts

/-- The loop of `Parser::parse_schemes`: until `]` or `Eof`, parse a scheme
after each `{`, demand a `}` at the current token afterwards, and advance
once per iteration. -/
def schemes_loop : Nat → List Token → List ASTNode → PResult (List ASTNode)
  | 0, _, _ => .outOfFuel
  | fuel + 1, ts, schemes =>
    if cur ts ≠ .RightBracket ∧ cur ts ≠ .Eof then
      if cur ts = .LeftBrace then
        (parse_scheme fuel (adv ts)).andThen fun s ts =>
        if cur ts ≠ .RightBrace then .fatal "Expected \x27\x7d\x27 to end scheme"
        else schemes_loop fuel (adv ts) (schemes ++ [s])
      else schemes_loop fuel (adv ts) schemes
    else .ok schemes ts

/-- `Parser::parse_schemes`. -/
def parse_schemes (fuel : Nat) (ts : List Token) : PResult (List ASTNode) :=
  (expect_operator "=" (adv ts)).andThen fun _ ts =>
  (expect_token .LeftBracket "Expected \x27[\x27 to start schemes" ts).andThen fun _ ts =>
  (schemes_loop fuel ts []).andThen fun schemes ts =>
  (expect_token .RightBracket "Expected \x27]\x27 to end schemes" ts).andThen fun _ ts =>
  .ok schemes ts

/-- The loop of `Parser::parse_define`: consume `version = ...` and
`schemes = [...]` entries in any order until `}`.  The catch-all arm skips
one token; at `Eof` it keeps skipping (the Rust loop tests only for `}`),
so an unterminated define block spins forever (fuel). -/
def define_loop : Nat → List Token → Option String → List ASTNode →
    PResult (Option String × List ASTNode)
  | 0, _, _, _ => .outOfFuel
  | fuel + 1, ts, version, schemes =>
    match cur ts with
    | .Version =>
      (parse_version ts).andThen fun vv ts => define_loop fuel ts (some vv.2) schemes
    | .Schemes =>
      (parse_schemes fuel ts).andThen fun s ts => define_loop fuel ts version s
    | .RightBrace => .ok (version, schemes) ts
    | _ => define_loop fuel (adv ts) version schemes

/-- `Parser::parse_define`. -/
def parse_define (fuel : Nat) (ts : List Token) : PResult ASTNode :=
  (expect_token .LeftBrace "Expected \x27\x7b\x27 to start define block" (adv ts)).andThen
    fun _ ts =>
  (define_loop fuel ts none []).andThen fun vs ts =>
  .ok (ASTNode.Define vs.1 vs.2) (adv ts)

/-- The declaration loop of `Parser::parse_state_block`. -/
def state_loop : Nat → List Token → List ASTNode → PResult (List ASTNode)
  | 0, _, _ => .outOfFuel
  | fuel + 1, ts, vars =>
    if cur ts ≠ .RightBrace ∧ cur ts ≠ .Eof then
      (expect_variable_type ts).andThen fun var_type ts =>
      (expect_identifier ts).andThen fun var_name ts =>
      (expect_token .SemiColon
        "Expected \x27;\x27 at the end of the state variable declaration" ts).andThen
        fun _ ts =>
      state_loop fuel ts (vars ++ [ASTNode.StateVariableDeclaration var_name var_type])
    else .ok vars ts

/-- `Parser::parse_state_block`. -/
def parse_state_block (fuel : Nat) (ts : List Token) : PResult ASTNode :=
  (expect_token .State "Expected \x27$state\x27 keyword" ts).andThen fun _ ts =>
  (expect_token .LeftBrace "Expected \x27\x7b\x27 after \x27$state\x27" ts).andThen fun _ ts =>
  (state_loop fuel ts []).andThen fun vars ts =>
  (expect_token .RightBrace "Expected \x27\x7d\x27 at the end of the state block" ts).andThen
    fun _ ts =>
  .ok (ASTNode.State vars) ts

/-- The declaration loop of `Parser::parse_consts_block` (the semicolon
panic message is the state-block one, verbatim from the source). -/
def consts_loop : Nat → List Token → List ASTNode → PResult (List ASTNode)
  | 0, _, _ => .outOfFuel
  | fuel + 1, ts, vars =>
    if cur ts ≠ .RightBrace ∧ cur ts ≠ .Eof then
      (expect_variable_type ts).andThen fun var_type ts =>
      (expect_identifier ts).andThen fun var_name ts =>
      (expect_operator "=" ts).andThen fun _ ts =>
      (expect_value fuel ts).andThen fun value ts =>
      (expect_token .SemiColon
        "Expected \x27;\x27 at the end of the state variable declaration" ts).andThen
        fun _ ts =>
      consts_loop fuel ts (vars ++ [ASTNode.ConstDeclaration var_name var_type value])
    else .ok vars ts

/-- `Parser::parse_consts_block`. -/
def parse_consts_block (fuel : Nat) (ts : List Token) : PResult ASTNode :=
  (expect_token .Consts "Expected \x27$consts\x27 keyword" ts).andThen fun _ ts =>
  (expect_token .LeftBrace "Expected \x27\x7b\x27 after \x27$consts\x27" ts).andThen fun _ ts =>
  (consts_loop fuel ts []).andThen fun vars ts =>
  (expect_token .RightBrace "Expected \x27\x7d\x27 at the end of the consts block" ts).andThen
    fun _ ts =>
  .ok (ASTNode.Consts vars) ts

/-- `Parser::parse_procedures`: a stub that consumes nothing and returns an
empty `Procedures` node (the `TODO` in the source). -/
def parse_procedures (ts : List Token) : PResult ASTNode :=
  .ok (ASTNode.Procedures []) ts

/-- The top-level dispatch loop of `Parser::parse`. -/
def parse_loop : Nat → List Token → List ASTNode → PResult (List ASTNode)
  | 0, _, _ => .outOfFuel
  | fuel + 1, ts, root =>
    match cur ts with
    | .Eof => .ok root ts
    | .Define => (parse_define fuel ts).andThen fun n ts => parse_loop fuel ts (root ++ [n])
    | .State =>
      (parse_state_block fuel ts).andThen fun n ts => parse_loop fuel ts (root ++ [n])
    | .Consts =>
      (parse_consts_block fuel ts).andThen fun n ts => parse_loop fuel ts (root ++ [n])
    | .Procedures =>
      (parse_procedures ts).andThen fun n ts => parse_loop fuel ts (root ++ [n])
    | _ => parse_loop fuel (adv ts) root

/-- `Parser::parse`: run the top-level loop to exhaustion and wrap the
collected nodes in a `Root`. -/
def parse (fuel : Nat) (ts : List Token) : PResult ASTNode :=
  (parse_loop fuel ts []).andThen fun root ts => .ok (ASTNode.Root root) ts

/-! ## Helper lemmas -/

theorem lookupState_updateState (l : List (String × StateValue)) (key : String)
    (value : StateValue) :
    lookupState (updateState l key value) key = (lookupState l key).map (fun _ => value) := by
  induction l with
  | nil => rfl
  | cons head rest ih =>
    obtain ⟨k, v⟩ := head
    by_cases h : k = key
    · simp [lookupState, updateState, h]
    · simp [lookupState, updateState, h, ih]

theorem lookupState_set_state (ctx : ExecutionContext) (key : String) (value : StateValue) :
    lookupState (ctx.set_state key value).state key = some value := by
  unfold ExecutionContext.set_state
  cases h : lookupState ctx.state key with
  | none => simp [lookupState]
  | some w => simp [lookupState_updateState, h]

theorem keywordToken_ne_eof {s : String} {t : Token} (h : keywordToken s = some t) :
    t ≠ .Eof := by
  unfold keywordToken at h
  cases hf : build_keyword_map.find? (fun kv => kv.1 = s) with
  | none => rw [hf] at h; exact Option.noConfusion h
  | some kv =>
    rw [hf] at h
    have hmem := List.mem_of_find?_eq_some hf
    have h2 := Option.some.inj h
    subst h2
    fin_cases hmem <;> simp

theorem tokenize_number_ne_eof (rest : List Char) : (tokenize_number rest).1 ≠ .Eof := by
  simp only [tokenize_number]
  split
  · split
    · simp
    · split <;> simp
  · split <;> simp

theorem tokenize_include_ne_eof {fs : List (String × String)} {wd : String}
    {rest : List Char} {t : Token} {l : Lexer}
    (h : tokenize_include fs wd rest = .ok (t, l)) : t ≠ .Eof := by
  simp only [tokenize_include] at h
  split at h
  · exact Except.noConfusion h
  · injection h with h
    injection h with h1 h2
    intro hc
    exact Token.noConfusion (h1.trans hc)

theorem identToken_ne_eof {fs : List (String × String)} {wd : String}
    {rest : List Char} {t : Token} {l : Lexer}
    (h : identToken fs wd rest = .ok (t, l)) : t ≠ .Eof := by
  simp only [identToken] at h
  split at h
  · exact tokenize_include_ne_eof h
  · split at h
    · rename_i tk hk
      injection h with h
      injection h with h1 h2
      intro hc
      exact keywordToken_ne_eof hk (h1.trans hc)
    · injection h with h
      injection h with h1 h2
      intro hc
      exact Token.noConfusion (h1.trans hc)

theorem punctToken_ne_eof (c : Char) : punctToken c ≠ .Eof := by
  unfold punctToken
  split_ifs <;> exact fun hc => Token.noConfusion hc

theorem baseNext_eof {fs : List (String × String)} {wd : String} {rest : List Char}
    {l' : Lexer} (h : baseNext fs wd rest = .ok (.Eof, l')) : l' = .mk [] wd none := by
  unfold baseNext at h
  split at h
  · injection h with h
    injection h with h1 h2
    exact h2.symm
  · split_ifs at h
    · injection h with h
      injection h with h1 h2
      exact Token.noConfusion h1
    · exact absurd rfl (identToken_ne_eof h)
    · injection h with h
      injection h with h1 h2
      exact Token.noConfusion h1
    · injection h with h
      injection h with h1 h2
      exact absurd h1 (tokenize_number_ne_eof _)
    · injection h with h
      injection h with h1 h2
      exact absurd h1 (punctToken_ne_eof _)

theorem parse_loop_procedures (fuel : Nat) :
    ∀ root, parse_loop fuel [Token.Procedures] root = .outOfFuel := by
  induction fuel with
  | zero => intro root; rfl
  | succ n ih =>
    intro root
    simp only [parse_loop, cur, parse_procedures, PResult.andThen]
    exact ih (root ++ [ASTNode.Procedures []])

/-! ## Claims -/

/-- Claim C1, counterexample: decoding `RET` (0x0F) with a one-byte operand
slice — whose length differs from RET's fixed arity 0 — succeeds instead of
failing with an operand-arity mismatch. -/
theorem c1_ret_no_arity_check : Opcode.from_hex 0x0F [0] = .ok .RET := by rfl

/-- Claim C1 (amended): for each of the 14 opcodes 0x01–0x0E, decoding with
an operand slice whose length differs from that opcode's fixed arity fails
with `OperandLenghtMismatch(expected, actual)`; the `RET` arm (0x0F)
performs no arity check and succeeds on every operand slice. -/
theorem c1_arity_mismatch (hex : Nat) (operands : List Nat) :
    (1 ≤ hex → hex ≤ 0x0E → operands.length ≠ operandArity hex →
      Opcode.from_hex hex operands =
        .error (.OperandLenghtMismatch (operandArity hex) operands.length)) ∧
    Opcode.from_hex 0x0F operands = .ok .RET := by
  constructor
  · intro h1 h2 h3
    interval_cases hex <;> simp_all [Opcode.from_hex, operandArity]
  · simp [Opcode.from_hex]

/-- Claim C1, witness: a wrong-arity `ADD` fails with expected/actual counts,
and `RET` with two operands still decodes. -/
theorem c1_arity_mismatch_witness :
    Opcode.from_hex 0x01 [] = .error (.OperandLenghtMismatch 2 0) ∧
    Opcode.from_hex 0x0F [1, 2] = .ok .RET :=
  ⟨(c1_arity_mismatch 0x01 []).1 (by decide) (by decide) (by decide),
   (c1_arity_mismatch 0x0F [1, 2]).2⟩

/-- Claim C2, counterexample: the value expression `10e12 * 5` folds to the
Number node `"50000000000000"` (5·10¹³), not `"5000000000000"` (5·10¹²) as
the claim states. -/
theorem c2_fold_counterexample :
    expect_value 50 [.Number "10000000000000", .Operator "*", .Number "5"] =
      .ok (ASTNode.Number "50000000000000") [] ∧
    ¬ ("50000000000000" = "5000000000000") := ⟨by rfl, by decide⟩

/-- Claim C2 (amended): lexing `10e12 * 5` expands the exponent literal to
`10000000000000` and the parser folds the multiplication at parse time to
the Number node `"50000000000000"`. -/
theorem c2_fold_scientific :
    tokenize [] 50 (.mk "10e12 * 5".toList "" none) =
      .ok [.Number "10000000000000", .Operator "*", .Number "5"] ∧
    expect_value 50 [.Number "10000000000000", .Operator "*", .Number "5"] =
      .ok (ASTNode.Number "50000000000000") [] := ⟨by rfl, by rfl⟩

/-- Claim C3: the parser does not terminate on every token stream.  On the
stream containing the single token `$procedures`, `parse` neither returns a
`Root` node nor aborts for any amount of fuel: `parse_procedures` consumes
no token, so the top-level dispatch loop re-reads `Procedures` forever. -/
theorem c3_parse_diverges_on_procedures (fuel : Nat) :
    parse fuel [Token.Procedures] = .outOfFuel := by
  simp only [parse, parse_loop_procedures fuel [], PResult.andThen]

/-- Claim C4: for every valid opcode byte 0x01–0x0F and operand slice of
exactly that opcode's fixed arity, decoding succeeds and re-encoding the
resulting instruction returns the same opcode byte. -/
theorem c4_decode_encode_roundtrip (hex : Nat) (operands : List Nat)
    (h1 : 1 ≤ hex) (h2 : hex ≤ 0x0F) (h3 : operands.length = operandArity hex) :
    ∃ op, Opcode.from_hex hex operands = .ok op ∧ op.to_hex = hex := by
  interval_cases hex <;> simp_all [Opcode.from_hex, operandArity, Opcode.to_hex]

/-- Claim C4, witness: `ADD 7 8` decodes from 0x01 and encodes back to
0x01. -/
theorem c4_roundtrip_witness :
    ∃ op, Opcode.from_hex 0x01 [7, 8] = .ok op ∧ op.to_hex = 0x01 :=
  c4_decode_encode_roundtrip 0x01 [7, 8] (by decide) (by decide) (by decide)

/-- Claim C5: on an empty register file the first `malloc` returns index 0
and a second returns index 1; after `delloc 0` the value previously stored
at index 1 is read at index 0 (every subsequent register shifts down); and
`delloc index` fails with `OutOfBounds(index, len)` exactly when
`index >= len`. -/
theorem c5_register_allocation (v0 v1 : Value) (ctx : ExecutionContext) (index : Nat) :
    (ExecutionContext.new_empty.malloc v0).2 = 0 ∧
    ((ExecutionContext.new_empty.malloc v0).1.malloc v1).2 = 1 ∧
    (∃ ctx2,
      ((ExecutionContext.new_empty.malloc v0).1.malloc v1).1.delloc 0 = .ok ctx2 ∧
      ctx2.memory.get? 0 = some v1) ∧
    (ctx.delloc index = .error (.OutOfBounds index ctx.memory.length) ↔
      ctx.memory.length ≤ index) := by
  refine ⟨rfl, rfl, ⟨_, rfl, rfl⟩, ?_⟩
  unfold ExecutionContext.delloc
  split_ifs with h
  · constructor
    · intro hc
      exact absurd hc (by simp)
    · intro hc
      exact absurd hc (by omega)
  · constructor
    · intro _
      omega
    · intro _
      rfl

/-- Claim C5, witness: deallocating from an empty register file is out of
bounds. -/
theorem c5_register_allocation_witness :
    ExecutionContext.new_empty.delloc 0 = .error (.OutOfBounds 0 0) :=
  (c5_register_allocation (Value.Uint8 0) (Value.Uint8 0)
    ExecutionContext.new_empty 0).2.2.2.mpr (by decide)

/-- Claim C6: writing a state key twice and reading it back returns the
second value (the second write overwrites in place), and reading a key that
was never set fails with the unknown-state-key error
`InvalidStateRegister`. -/
theorem c6_state_overwrite (ctx : ExecutionContext) (key : String) (v1 v2 : StateValue) :
    ((ctx.set_state key v1).set_state key v2).get_state key = .ok v2 ∧
    (lookupState ctx.state key = none →
      ctx.get_state key = .error (.InvalidStateRegister key)) := by
  constructor
  · unfold ExecutionContext.get_state
    rw [lookupState_set_state]
  · intro h
    unfold ExecutionContext.get_state
    rw [h]

/-- Claim C6, witness: `set_state "x" v1; set_state "x" v2; get_state "x"`
returns `v2` on the empty context, and `get_state "missing"` fails. -/
theorem c6_state_overwrite_witness :
    ((ExecutionContext.new_empty.set_state "x" (.Uint8 1)).set_state "x"
        (.Uint8 2)).get_state "x" = .ok (.Uint8 2) ∧
    ExecutionContext.new_empty.get_state "missing" =
      .error (.InvalidStateRegister "missing") :=
  ⟨(c6_state_overwrite ExecutionContext.new_empty "x" (.Uint8 1) (.Uint8 2)).1,
   (c6_state_overwrite ExecutionContext.new_empty "missing" (.Uint8 0) (.Uint8 0)).2 rfl⟩

set_option maxHeartbeats 1000000 in
/-- Claim C7: decoding fails with `InvalidOpcode` carrying the offending
byte exactly when the opcode byte lies outside the 15 assigned values
0x01–0x0F; in particular `from_hex 0xFF []` fails that way. -/
theorem c7_unknown_opcode (hex : Nat) (operands : List Nat) :
    (Opcode.from_hex hex operands = .error (.InvalidOpcode hex) ↔
      ¬ (1 ≤ hex ∧ hex ≤ 0x0F)) ∧
    Opcode.from_hex 0xFF [] = .error (.InvalidOpcode 0xFF) := by
  refine ⟨⟨?_, ?_⟩, by rfl⟩
  · intro h hcon
    obtain ⟨hb1, hb2⟩ := hcon
    unfold Opcode.from_hex at h
    by_cases e1 : hex = 1
    · rw [if_pos e1] at h
      split at h
      · injection h with h
        exact OpcodeError.noConfusion h
      · exact Except.noConfusion h
    · rw [if_neg e1] at h
      by_cases e2 : hex = 2
      · rw [if_pos e2] at h
        split at h
        · injection h with h
          exact OpcodeError.noConfusion h
        · exact Except.noConfusion h
      · rw [if_neg e2] at h
        by_cases e3 : hex = 3
        · rw [if_pos e3] at h
          split at h
          · injection h with h
            exact OpcodeError.noConfusion h
          · exact Except.noConfusion h
        · rw [if_neg e3] at h
          by_cases e4 : hex = 4
          · rw [if_pos e4] at h
            split at h
            · injection h with h
              exact OpcodeError.noConfusion h
            · exact Except.noConfusion h
          · rw [if_neg e4] at h
            by_cases e5 : hex = 5
            · rw [if_pos e5] at h
              split at h
              · injection h with h
                exact OpcodeError.noConfusion h
              · exact Except.noConfusion h
            · rw [if_neg e5] at h
              by_cases e6 : hex = 6
              · rw [if_pos e6] at h
                split at h
                · injection h with h
                  exact OpcodeError.noConfusion h
                · exact Except.noConfusion h
              · rw [if_neg e6] at h
                by_cases e7 : hex = 7
                · rw [if_pos e7] at h
                  split at h
                  · injection h with h
                    exact OpcodeError.noConfusion h
                  · exact Except.noConfusion h
                · rw [if_neg e7] at h
                  by_cases e8 : hex = 8
                  · rw [if_pos e8] at h
                    split at h
                    · injection h with h
                      exact OpcodeError.noConfusion h
                    · exact Except.noConfusion h
                  · rw [if_neg e8] at h
                    by_cases e9 : hex = 9
                    · rw [if_pos e9] at h
                      split at h
                      · injection h with h
                        exact OpcodeError.noConfusion h
                      · exact Except.noConfusion h
                    · rw [if_neg e9] at h
                      by_cases e10 : hex = 10
                      · rw [if_pos e10] at h
                        split at h
                        · injection h with h
                          exact OpcodeError.noConfusion h
                        · exact Except.noConfusion h
                      · rw [if_neg e10] at h
                        by_cases e11 : hex = 11
                        · rw [if_pos e11] at h
                          split at h
                          · injection h with h
                            exact OpcodeError.noConfusion h
                          · exact Except.noConfusion h
                        · rw [if_neg e11] at h
                          by_cases e12 : hex = 12
                          · rw [if_pos e12] at h
                            split at h
                            · injection h with h
                              exact OpcodeError.noConfusion h
                            · exact Except.noConfusion h
                          · rw [if_neg e12] at h
                            by_cases e13 : hex = 13
                            · rw [if_pos e13] at h
                              split at h
                              · injection h with h
                                exact OpcodeError.noConfusion h
                              · exact Except.noConfusion h
                            · rw [if_neg e13] at h
                              by_cases e14 : hex = 14
                              · rw [if_pos e14] at h
                                split at h
                                · injection h with h
                                  exact OpcodeError.noConfusion h
                                · exact Except.noConfusion h
                              · rw [if_neg e14] at h
                                by_cases e15 : hex = 15
                                · rw [if_pos e15] at h
                                  exact Except.noConfusion h
                                · omega
  · intro hv
    unfold Opcode.from_hex
    rw [if_neg (show ¬ hex = 0x01 by omega), if_neg (show ¬ hex = 0x02 by omega),
        if_neg (show ¬ hex = 0x03 by omega), if_neg (show ¬ hex = 0x04 by omega),
        if_neg (show ¬ hex = 0x05 by omega), if_neg (show ¬ hex = 0x06 by omega),
        if_neg (show ¬ hex = 0x07 by omega), if_neg (show ¬ hex = 0x08 by omega),
        if_neg (show ¬ hex = 0x09 by omega), if_neg (show ¬ hex = 0x0A by omega),
        if_neg (show ¬ hex = 0x0B by omega), if_neg (show ¬ hex = 0x0C by omega),
        if_neg (show ¬ hex = 0x0D by omega), if_neg (show ¬ hex = 0x0E by omega),
        if_neg (show ¬ hex = 0x0F by omega)]

/-- Claim C7, witness: `from_hex 0xFF []` fails with `InvalidOpcode 0xFF`. -/
theorem c7_unknown_opcode_witness :
    Opcode.from_hex 0xFF [] = .error (.InvalidOpcode 0xFF) :=
  (c7_unknown_opcode 0xFF []).1.mpr (by decide)

/-- Claim C8: the value expression `10 - 3 * 2` is lexed into single-token
operators and numbers and folded strictly left-to-right with no operator
precedence, yielding the Number node `"14"` (i.e. `(10 - 3) * 2`), not
`"4"`. -/
theorem c8_left_to_right_folding :
    tokenize [] 50 (.mk "10 - 3 * 2".toList "" none) =
      .ok [.Number "10", .Operator "-", .Number "3", .Operator "*", .Number "2"] ∧
    expect_value 50 [.Number "10", .Operator "-", .Number "3", .Operator "*", .Number "2"] =
      .ok (ASTNode.Number "14") [] ∧
    ¬ ("14" = "4") := ⟨by rfl, by rfl, by decide⟩

/-- Claim C9: `next_token` never hands the caller the synthetic end-of-input
token of a nested (included-file) lexer: whenever it returns `Eof`, every
nested lexer has been popped (`inner_lexer = none`) and the returned `Eof`
is the outermost source's own, produced with its input exhausted. -/
theorem c9_eof_transparent_popping (fs : List (String × String)) (l l' : Lexer)
    (h : nextToken fs l = .ok (.Eof, l')) :
    l'.inner_lexer = none ∧ l'.rest = [] := by
  cases l with
  | mk rest wd inner =>
    cases inner with
    | none =>
      unfold nextToken at h
      rw [baseNext_eof h]
      exact ⟨rfl, rfl⟩
    | some i =>
      unfold nextToken at h
      split at h
      · exact Except.noConfusion h
      · split at h
        · rw [baseNext_eof h]
          exact ⟨rfl, rfl⟩
        · rename_i hne
          injection h with h
          injection h with h1 h2
          exact absurd h1 hne

/-- Claim C9, witness: a lexer holding an exhausted nested lexer pops it and
returns the outermost `Eof` with no inner lexer left. -/
theorem c9_eof_transparent_popping_witness :
    (Lexer.mk [] "" none).inner_lexer = none ∧ (Lexer.mk [] "" none).rest = [] :=
  c9_eof_transparent_popping [] (Lexer.mk [] "" (some (Lexer.mk [] "" none)))
    (Lexer.mk [] "" none) (by rfl)

/-- Claim C10: constant folding is only total on literals that parse as
`u128`: in the value expression `2.5 + 1` the literal `2.5` lexes as a
Number token, `parse::<u128>` fails on it, and the unchecked `unwrap` in
the folding loop aborts the parse instead of producing a Number node or a
typed error. -/
theorem c10_fold_unwrap_aborts :
    tokenize [] 50 (.mk "2.5 + 1".toList "" none) =
      .ok [.Number "2.5", .Operator "+", .Number "1"] ∧
    expect_value 50 [.Number "2.5", .Operator "+", .Number "1"] =
      .fatal "called Result::unwrap on an Err value" ∧
    parseU128 "2.5" = none := ⟨by rfl, by rfl, by rfl⟩
